import Mathlib

/-!
Verification development for the offer index and query engine
(`db_manager.rs`, `region_hierarchy.rs`, `number_of_days.rs`, `json_models.rs`).

Machine integers (`u32`, `u8`) are modelled as `Nat`; none of the verified
properties involve wrap-around, and all source arithmetic on these fields
stays far below `2^32` under the documented field semantics (non-negative
prices, kilometres, day counts, 0..124 region ids).  Textual identifiers
(Rust `String`, compared byte-wise by `Ord for String`) are modelled as the
byte sequence `List Nat`.  A Rust panic (out-of-bounds slice index,
for example) is modelled as `Option.none` propagating out of the function.
-/

/-- `CarType` from `db_models.rs` / `json_models.rs`:
one of Small, Sports, Luxury, Family. -/
inductive CarType where
  | Small
  | Sports
  | Luxury
  | Family
deriving DecidableEq, Repr

/-- `CarType::eq_me` from `db_manager.rs` (lines 19-29): pairwise match of the
two car-type enums, `true` exactly on the four matching pairs.  The two Rust
enums (`db_models::CarType`, `json_models::CarType`) have identical
constructors and are collapsed into the single `CarType` above. -/
def CarType.eq_me (a b : CarType) : Bool :=
  match a, b with
  | CarType.Small, CarType.Small => true
  | CarType.Sports, CarType.Sports => true
  | CarType.Luxury, CarType.Luxury => true
  | CarType.Family, CarType.Family => true
  | _, _ => false

/-- `SortOrder` from `json_models.rs`: `price-asc` or `price-desc`. -/
inductive SortOrder where
  | PriceAsc
  | PriceDesc
deriving DecidableEq, Repr

/-- Modelled from the spec: the `Offer` record of `db_models.rs`, which is not
under `src/`.  Fields follow spec section 3 and the accesses made by the code
under `src/` (`db_manager.rs` reads `number_seats`, `car_type`,
`has_vollkasko`, `free_kilometers`, `price`, `id`, `data`;
`number_of_days.rs` reads `start_date`, `end_date`, `idx`).  `id` and `data`
are opaque byte strings; numeric fields are non-negative integers. -/
structure Offer where
  id : List Nat
  data : List Nat
  region_id : Nat
  start_date : Nat
  end_date : Nat
  number_seats : Nat
  price : Nat
  car_type : CarType
  has_vollkasko : Bool
  free_kilometers : Nat
  idx : Nat
deriving DecidableEq, Repr

/-- `RequestOffer` from `json_models.rs` (lines 5-21).  The spec picks the
non-negative typing matching the documented semantics, so the integer fields
are `Nat`. -/
structure RequestOffer where
  region_id : Nat
  time_range_start : Nat
  time_range_end : Nat
  number_days : Nat
  sort_order : SortOrder
  page : Nat
  page_size : Nat
  price_range_width : Nat
  min_free_kilometer_width : Nat
  min_number_seats : Option Nat
  min_price : Option Nat
  max_price : Option Nat
  car_type : Option CarType
  only_vollkasko : Option Bool
  min_free_kilometer : Option Nat
deriving DecidableEq, Repr

/-- `PriceRange` from `json_models.rs`; the Rust field `end` is `end_` here
because `end` is a Lean keyword. -/
structure PriceRange where
  start : Nat
  end_ : Nat
  count : Nat
deriving DecidableEq, Repr

/-- `FreeKilometerRange` from `json_models.rs`. -/
structure FreeKilometerRange where
  start : Nat
  end_ : Nat
  count : Nat
deriving DecidableEq, Repr

/-- `CarTypeCount` from `json_models.rs`. -/
structure CarTypeCount where
  small : Nat
  sports : Nat
  luxury : Nat
  family : Nat
deriving DecidableEq, Repr

/-- `VollKaskoCount` from `json_models.rs`. -/
structure VollKaskoCount where
  true_count : Nat
  false_count : Nat
deriving DecidableEq, Repr

/-- `SeatCount` from `json_models.rs`. -/
structure SeatCount where
  count : Nat
  number_seats : Nat
deriving DecidableEq, Repr

/-- `ResponseOffer` as used by `DBManager::sort_orders_and_paginate`
(fields `ID` and `data`). -/
structure ResponseOffer where
  ID : List Nat
  data : List Nat
deriving DecidableEq, Repr

/-- `GetReponseBodyModel` as assembled at `db_manager.rs` lines 186-199
(the struct itself lives outside `src/`; its fields are exactly the six
components built there, per the spec's response schema). -/
structure GetReponseBodyModel where
  offers : List ResponseOffer
  price_ranges : List PriceRange
  car_type_counts : CarTypeCount
  seats_count : List SeatCount
  free_kilometer_range : List FreeKilometerRange
  vollkasko_count : VollKaskoCount
deriving DecidableEq, Repr

/-! ### Per-offer predicate flags (`db_manager.rs` lines 73-108)

Each flag starts `true` and is set to `false` by the corresponding `if`;
the sequential flag mutation is written as nested conditionals. -/

/-- `seats_incl` flag: lines 79-83 of `db_manager.rs`. -/
def seats_incl (req : RequestOffer) (o : Offer) : Bool :=
  match req.min_number_seats with
  | some minNumberOfSeats => if o.number_seats < minNumberOfSeats then false else true
  | none => true

/-- `car_type_incl` flag: lines 84-88 of `db_manager.rs`. -/
def car_type_incl (req : RequestOffer) (o : Offer) : Bool :=
  match req.car_type with
  | some carType => if !(o.car_type.eq_me carType) then false else true
  | none => true

/-- `only_vollkasko_ignored` flag: lines 89-93 of `db_manager.rs`. -/
def only_vollkasko_ignored (req : RequestOffer) (o : Offer) : Bool :=
  match req.only_vollkasko with
  | some vollkasko_required => if vollkasko_required && !o.has_vollkasko then false else true
  | none => true

/-- `free_kilometers_incl` flag: lines 94-98 of `db_manager.rs`. -/
def free_kilometers_incl (req : RequestOffer) (o : Offer) : Bool :=
  match req.min_free_kilometer with
  | some minFreeKilometers => if o.free_kilometers < minFreeKilometers then false else true
  | none => true

/-- `price_range_incl` flag: lines 99-108 of `db_manager.rs`.  The `max_price`
check runs first, then the `min_price` check; either sets the flag `false`. -/
def price_range_incl (req : RequestOffer) (o : Offer) : Bool :=
  let incl := true
  let incl := match req.max_price with
    | some maxPrice => if maxPrice ≤ o.price then false else incl
    | none => incl
  let incl := match req.min_price with
    | some minPrice => if minPrice > o.price then false else incl
    | none => incl
  incl

/-- C3: the price predicate holds iff the lower bound (when set) is satisfied
inclusively and the upper bound (when set) strictly; in particular an offer
whose price equals a set `max_price` fails the predicate. -/
theorem price_predicate_inclusive_lower_strict_upper (req : RequestOffer) (o : Offer) :
    (price_range_incl req o = true ↔
      ((∀ m, req.min_price = some m → m ≤ o.price) ∧
       (∀ m, req.max_price = some m → o.price < m))) ∧
    (req.max_price = some o.price → price_range_incl req o = false) := by
  constructor
  · unfold price_range_incl
    rcases hmax : req.max_price with _ | mx <;> rcases hmin : req.min_price with _ | mn <;>
      simp <;> omega
  · intro hmax
    unfold price_range_incl
    rw [hmax]
    rcases req.min_price with _ | mn <;> simp

/-- Witness for the `max_price` part of C3 at a concrete request and offer. -/
theorem price_predicate_witness :
    (price_range_incl
        { region_id := 0, time_range_start := 0, time_range_end := 0, number_days := 0,
          sort_order := SortOrder.PriceAsc, page := 0, page_size := 10,
          price_range_width := 500, min_free_kilometer_width := 50,
          min_number_seats := none, min_price := none, max_price := some 1000,
          car_type := none, only_vollkasko := none, min_free_kilometer := none }
        { id := [97], data := [], region_id := 0, start_date := 0, end_date := 86400000,
          number_seats := 4, price := 1000, car_type := CarType.Small,
          has_vollkasko := true, free_kilometers := 100, idx := 0 } = false) :=
  (price_predicate_inclusive_lower_strict_upper _ _).2 rfl

/-! ### Hash-map model

`FxHashMap<u32, u32>` used for the histograms and seat counts supports two
operations in the source: `entry(k).and_modify(|c| *c += 1).or_insert(1)`
(increment, inserting `1` when absent) and key iteration / lookup.  It is
modelled as an association list in insertion order with distinct keys. -/

/-- Increment the count stored under `k`, inserting `(k, 1)` when absent
(`entry(k).and_modify(+1).or_insert(1)`). -/
def incKey : List (Nat × Nat) → Nat → List (Nat × Nat)
  | [], k => [(k, 1)]
  | (k', c) :: rest, k =>
      if k' = k then (k', c + 1) :: rest else (k', c) :: incKey rest k

/-- Lookup of a key's count; `0` when the key is absent. -/
def lookupCount : List (Nat × Nat) → Nat → Nat
  | [], _ => 0
  | e :: rest, k => if e.1 = k then e.2 else lookupCount rest k

/-- The keys of the map, in insertion order. -/
def keysOf (m : List (Nat × Nat)) : List Nat := m.map Prod.fst

/-- Accumulator state of the candidate loop in `DBManager::query_for`
(lines 54-70): the result list and the five facet aggregates. -/
structure FacetState where
  filtered_offers : List Offer
  vollkasko_count : VollKaskoCount
  car_type_count : CarTypeCount
  free_kilometers_interval_mapping : List (Nat × Nat)
  price_range_interval_mapping : List (Nat × Nat)
  seats_count_map : List (Nat × Nat)
deriving DecidableEq, Repr

/-- The loop accumulators as initialised at `db_manager.rs` lines 54-70. -/
def FacetState.init : FacetState :=
  { filtered_offers := []
    vollkasko_count := { true_count := 0, false_count := 0 }
    car_type_count := { small := 0, sports := 0, luxury := 0, family := 0 }
    free_kilometers_interval_mapping := []
    price_range_interval_mapping := []
    seats_count_map := [] }

/-- `DBManager::handle_seats_count` (lines 202-208). -/
def handle_seats_count (m : List (Nat × Nat)) (o : Offer) : List (Nat × Nat) :=
  incKey m o.number_seats

/-- The price-histogram bucket key of an offer:
`(offer.price / price_range_width) * price_range_width`
(`DBManager::handle_price_range`, line 216-217). -/
def priceBucket (req : RequestOffer) (o : Offer) : Nat :=
  (o.price / req.price_range_width) * req.price_range_width

/-- `DBManager::handle_price_range` (lines 210-222). -/
def handle_price_range (req : RequestOffer) (m : List (Nat × Nat)) (o : Offer) :
    List (Nat × Nat) :=
  incKey m (priceBucket req o)

/-- The kilometre-histogram bucket key of an offer:
`(offer.free_kilometers / min_free_kilometer_width) * min_free_kilometer_width`
(`DBManager::handle_free_kilometers_range`, lines 230-231). -/
def kmBucket (req : RequestOffer) (o : Offer) : Nat :=
  (o.free_kilometers / req.min_free_kilometer_width) * req.min_free_kilometer_width

/-- `DBManager::handle_free_kilometers_range` (lines 224-236). -/
def handle_free_kilometers_range (req : RequestOffer) (m : List (Nat × Nat)) (o : Offer) :
    List (Nat × Nat) :=
  incKey m (kmBucket req o)

/-- `DBManager::handle_car_type_count` (lines 238-246). -/
def handle_car_type_count (c : CarTypeCount) (o : Offer) : CarTypeCount :=
  match o.car_type with
  | CarType.Small => { c with small := c.small + 1 }
  | CarType.Sports => { c with sports := c.sports + 1 }
  | CarType.Luxury => { c with luxury := c.luxury + 1 }
  | CarType.Family => { c with family := c.family + 1 }

/-- `DBManager::handle_vollkasko_count` (lines 248-255). -/
def handle_vollkasko_count (c : VollKaskoCount) (o : Offer) : VollKaskoCount :=
  if o.has_vollkasko then { c with true_count := c.true_count + 1 }
  else { c with false_count := c.false_count + 1 }

/-- One iteration of the candidate loop of `DBManager::query_for`
(lines 72-157): evaluate the five flags and dispatch on the 7-arm `match`. -/
def processOffer (req : RequestOffer) (st : FacetState) (o : Offer) : FacetState :=
  match seats_incl req o, car_type_incl req o, only_vollkasko_ignored req o,
        free_kilometers_incl req o, price_range_incl req o with
  | true, true, true, true, true =>
      { st with
        filtered_offers := st.filtered_offers ++ [o]
        vollkasko_count := handle_vollkasko_count st.vollkasko_count o
        car_type_count := handle_car_type_count st.car_type_count o
        free_kilometers_interval_mapping :=
          handle_free_kilometers_range req st.free_kilometers_interval_mapping o
        price_range_interval_mapping :=
          handle_price_range req st.price_range_interval_mapping o
        seats_count_map := handle_seats_count st.seats_count_map o }
  | true, true, true, true, false =>
      { st with price_range_interval_mapping :=
          handle_price_range req st.price_range_interval_mapping o }
  | true, true, true, false, true =>
      { st with free_kilometers_interval_mapping :=
          handle_free_kilometers_range req st.free_kilometers_interval_mapping o }
  | true, true, false, true, true =>
      { st with vollkasko_count := handle_vollkasko_count st.vollkasko_count o }
  | true, false, true, true, true =>
      { st with car_type_count := handle_car_type_count st.car_type_count o }
  | false, true, true, true, true =>
      { st with seats_count_map := handle_seats_count st.seats_count_map o }
  | _, _, _, _, _ => st

/-- The whole candidate loop: left fold of `processOffer` over the candidate
offers, from the initial accumulators. -/
def processOffers (req : RequestOffer) (offers : List Offer) : FacetState :=
  offers.foldl (processOffer req) FacetState.init

/-- Conjunction of all five predicate flags: the condition for the result
list (`match` arm `(true, true, true, true, true)`). -/
def allFive (req : RequestOffer) (o : Offer) : Bool :=
  seats_incl req o && car_type_incl req o && only_vollkasko_ignored req o &&
    free_kilometers_incl req o && price_range_incl req o

/-- All flags except the price flag. -/
def exceptPrice (req : RequestOffer) (o : Offer) : Bool :=
  seats_incl req o && car_type_incl req o && only_vollkasko_ignored req o &&
    free_kilometers_incl req o

/-- All flags except the kilometre flag. -/
def exceptKm (req : RequestOffer) (o : Offer) : Bool :=
  seats_incl req o && car_type_incl req o && only_vollkasko_ignored req o &&
    price_range_incl req o

/-- All flags except the vollkasko flag. -/
def exceptVollkasko (req : RequestOffer) (o : Offer) : Bool :=
  seats_incl req o && car_type_incl req o && free_kilometers_incl req o &&
    price_range_incl req o

/-- All flags except the car-type flag. -/
def exceptCarType (req : RequestOffer) (o : Offer) : Bool :=
  seats_incl req o && only_vollkasko_ignored req o && free_kilometers_incl req o &&
    price_range_incl req o

/-- All flags except the seats flag. -/
def exceptSeats (req : RequestOffer) (o : Offer) : Bool :=
  car_type_incl req o && only_vollkasko_ignored req o && free_kilometers_incl req o &&
    price_range_incl req o

/-! ### Map lemmas -/

theorem lookupCount_incKey (m : List (Nat × Nat)) (k k' : Nat) :
    lookupCount (incKey m k) k' = lookupCount m k' + (if k' = k then 1 else 0) := by
  induction m with
  | nil =>
      by_cases h : k' = k
      · subst h; simp [incKey, lookupCount]
      · have h' : ¬k = k' := fun hh => h hh.symm
        simp [incKey, lookupCount, h, h']
  | cons e rest ih =>
      obtain ⟨a, c⟩ := e
      by_cases hak : a = k
      · subst hak
        by_cases h : a = k'
        · subst h; simp [incKey, lookupCount]
        · have h' : ¬k' = a := fun hh => h hh.symm
          simp [incKey, lookupCount, h, h']
      · simp only [incKey, if_neg hak]
        by_cases h : a = k'
        · subst h
          have h' : ¬a = k := hak
          have h'' : ¬a = k → (if a = k then (1 : Nat) else 0) = 0 := fun hh => if_neg hh
          simp [lookupCount, h'' h']
        · simp [lookupCount, h, ih]

theorem mem_keys_incKey (m : List (Nat × Nat)) (k x : Nat) :
    x ∈ keysOf (incKey m k) ↔ x ∈ keysOf m ∨ x = k := by
  induction m with
  | nil => simp [incKey, keysOf]
  | cons e rest ih =>
      obtain ⟨a, c⟩ := e
      by_cases hak : a = k
      · subst hak
        simp only [incKey, if_pos rfl]
        show x ∈ a :: keysOf rest ↔ x ∈ a :: keysOf rest ∨ x = a
        constructor
        · exact fun h => Or.inl h
        · rintro (h | h)
          · exact h
          · exact h ▸ List.mem_cons_self _ _
      · simp only [incKey, if_neg hak]
        show x ∈ a :: keysOf (incKey rest k) ↔ x ∈ a :: keysOf rest ∨ x = k
        rw [List.mem_cons, List.mem_cons, ih]
        tauto

theorem nodup_keys_incKey (m : List (Nat × Nat)) (k : Nat)
    (h : (keysOf m).Nodup) : (keysOf (incKey m k)).Nodup := by
  induction m with
  | nil => simp [incKey, keysOf]
  | cons e rest ih =>
      obtain ⟨a, c⟩ := e
      have hrest : (keysOf rest).Nodup := (List.nodup_cons.mp h).2
      have hna : a ∉ keysOf rest := (List.nodup_cons.mp h).1
      by_cases hak : a = k
      · subst hak
        simpa only [incKey, if_pos rfl] using h
      · simp only [incKey, if_neg hak]
        show (a :: keysOf (incKey rest k)).Nodup
        rw [List.nodup_cons]
        refine ⟨fun hmem => ?_, ih hrest⟩
        rcases (mem_keys_incKey rest k a).mp hmem with hmem | hmem
        · exact hna hmem
        · exact hak hmem

theorem pos_values_incKey (m : List (Nat × Nat)) (k : Nat)
    (h : ∀ e ∈ m, 0 < e.2) : ∀ e ∈ incKey m k, 0 < e.2 := by
  induction m with
  | nil =>
      intro e he
      simp only [incKey, List.mem_singleton] at he
      subst he; exact Nat.one_pos
  | cons e rest ih =>
      obtain ⟨a, c⟩ := e
      by_cases hak : a = k
      · subst hak
        intro x hx
        simp only [incKey, if_pos rfl] at hx
        rcases List.mem_cons.mp hx with hx | hx
        · subst hx; exact Nat.succ_pos _
        · exact h x (List.mem_cons_of_mem _ hx)
      · intro x hx
        simp only [incKey, if_neg hak] at hx
        rcases List.mem_cons.mp hx with hx | hx
        · subst hx; exact h _ (List.mem_cons_self _ _)
        · exact ih (fun e he => h e (List.mem_cons_of_mem _ he)) x hx

theorem mem_keys_iff_lookup_pos (m : List (Nat × Nat)) (k : Nat)
    (h : ∀ e ∈ m, 0 < e.2) : k ∈ keysOf m ↔ 0 < lookupCount m k := by
  induction m with
  | nil => simp [keysOf, lookupCount]
  | cons e rest ih =>
      obtain ⟨a, c⟩ := e
      have ih' := ih (fun e he => h e (List.mem_cons_of_mem _ he))
      show k ∈ a :: keysOf rest ↔ 0 < lookupCount ((a, c) :: rest) k
      by_cases hk : a = k
      · subst hk
        have hc : 0 < c := h (a, c) (List.mem_cons_self _ _)
        simp [lookupCount, hc]
      · have hk' : ¬k = a := fun hh => hk hh.symm
        rw [List.mem_cons]
        simp only [lookupCount, if_neg hk]
        rw [ih']
        simp [hk']

/-- The 7-arm `match` of the candidate loop, re-expressed componentwise:
each facet aggregate is updated exactly when all flags other than its own
dimension's flag are `true`, and the result list grows exactly when all five
are `true`. -/
theorem processOffer_eq (req : RequestOffer) (st : FacetState) (o : Offer) :
    processOffer req st o =
      { filtered_offers := st.filtered_offers ++ (if allFive req o then [o] else [])
        vollkasko_count :=
          if exceptVollkasko req o then handle_vollkasko_count st.vollkasko_count o
          else st.vollkasko_count
        car_type_count :=
          if exceptCarType req o then handle_car_type_count st.car_type_count o
          else st.car_type_count
        free_kilometers_interval_mapping :=
          if exceptKm req o then
            handle_free_kilometers_range req st.free_kilometers_interval_mapping o
          else st.free_kilometers_interval_mapping
        price_range_interval_mapping :=
          if exceptPrice req o then
            handle_price_range req st.price_range_interval_mapping o
          else st.price_range_interval_mapping
        seats_count_map :=
          if exceptSeats req o then handle_seats_count st.seats_count_map o
          else st.seats_count_map } := by
  unfold processOffer allFive exceptPrice exceptKm exceptVollkasko exceptCarType exceptSeats
  cases seats_incl req o <;> cases car_type_incl req o <;>
    cases only_vollkasko_ignored req o <;> cases free_kilometers_incl req o <;>
    cases price_range_incl req o <;> simp

/-! ### Fold characterisations of the candidate loop -/

theorem foldl_filtered (req : RequestOffer) :
    ∀ (offers : List Offer) (st : FacetState),
      (offers.foldl (processOffer req) st).filtered_offers =
        st.filtered_offers ++ offers.filter (allFive req) := by
  intro offers
  induction offers with
  | nil => intro st; simp
  | cons o rest ih =>
      intro st
      rw [List.foldl_cons, ih, processOffer_eq, List.filter_cons]
      by_cases h : allFive req o <;> simp [h]

theorem foldl_vollkasko_true (req : RequestOffer) :
    ∀ (offers : List Offer) (st : FacetState),
      (offers.foldl (processOffer req) st).vollkasko_count.true_count =
        st.vollkasko_count.true_count +
          offers.countP (fun o => exceptVollkasko req o && o.has_vollkasko) := by
  intro offers
  induction offers with
  | nil => intro st; simp
  | cons o rest ih =>
      intro st
      rw [List.foldl_cons, ih, processOffer_eq, List.countP_cons]
      by_cases h : exceptVollkasko req o <;>
        cases hv : o.has_vollkasko <;>
        simp [h, hv, handle_vollkasko_count] <;> omega

theorem foldl_vollkasko_false (req : RequestOffer) :
    ∀ (offers : List Offer) (st : FacetState),
      (offers.foldl (processOffer req) st).vollkasko_count.false_count =
        st.vollkasko_count.false_count +
          offers.countP (fun o => exceptVollkasko req o && !o.has_vollkasko) := by
  intro offers
  induction offers with
  | nil => intro st; simp
  | cons o rest ih =>
      intro st
      rw [List.foldl_cons, ih, processOffer_eq, List.countP_cons]
      by_cases h : exceptVollkasko req o <;>
        cases hv : o.has_vollkasko <;>
        simp [h, hv, handle_vollkasko_count] <;> omega

theorem foldl_car_small (req : RequestOffer) :
    ∀ (offers : List Offer) (st : FacetState),
      (offers.foldl (processOffer req) st).car_type_count.small =
        st.car_type_count.small +
          offers.countP (fun o => exceptCarType req o && decide (o.car_type = CarType.Small)) := by
  intro offers
  induction offers with
  | nil => intro st; simp
  | cons o rest ih =>
      intro st
      rw [List.foldl_cons, ih, processOffer_eq, List.countP_cons]
      by_cases h : exceptCarType req o <;>
        cases hc : o.car_type <;>
        simp [h, hc, handle_car_type_count] <;> omega

theorem foldl_car_sports (req : RequestOffer) :
    ∀ (offers : List Offer) (st : FacetState),
      (offers.foldl (processOffer req) st).car_type_count.sports =
        st.car_type_count.sports +
          offers.countP (fun o => exceptCarType req o && decide (o.car_type = CarType.Sports)) := by
  intro offers
  induction offers with
  | nil => intro st; simp
  | cons o rest ih =>
      intro st
      rw [List.foldl_cons, ih, processOffer_eq, List.countP_cons]
      by_cases h : exceptCarType req o <;>
        cases hc : o.car_type <;>
        simp [h, hc, handle_car_type_count] <;> omega

theorem foldl_car_luxury (req : RequestOffer) :
    ∀ (offers : List Offer) (st : FacetState),
      (offers.foldl (processOffer req) st).car_type_count.luxury =
        st.car_type_count.luxury +
          offers.countP (fun o => exceptCarType req o && decide (o.car_type = CarType.Luxury)) := by
  intro offers
  induction offers with
  | nil => intro st; simp
  | cons o rest ih =>
      intro st
      rw [List.foldl_cons, ih, processOffer_eq, List.countP_cons]
      by_cases h : exceptCarType req o <;>
        cases hc : o.car_type <;>
        simp [h, hc, handle_car_type_count] <;> omega

theorem foldl_car_family (req : RequestOffer) :
    ∀ (offers : List Offer) (st : FacetState),
      (offers.foldl (processOffer req) st).car_type_count.family =
        st.car_type_count.family +
          offers.countP (fun o => exceptCarType req o && decide (o.car_type = CarType.Family)) := by
  intro offers
  induction offers with
  | nil => intro st; simp
  | cons o rest ih =>
      intro st
      rw [List.foldl_cons, ih, processOffer_eq, List.countP_cons]
      by_cases h : exceptCarType req o <;>
        cases hc : o.car_type <;>
        simp [h, hc, handle_car_type_count] <;> omega

theorem foldl_price_map (req : RequestOffer) :
    ∀ (offers : List Offer) (st : FacetState) (k : Nat),
      lookupCount (offers.foldl (processOffer req) st).price_range_interval_mapping k =
        lookupCount st.price_range_interval_mapping k +
          offers.countP (fun o => exceptPrice req o && decide (priceBucket req o = k)) := by
  intro offers
  induction offers with
  | nil => intro st k; simp
  | cons o rest ih =>
      intro st k
      rw [List.foldl_cons, ih, processOffer_eq, List.countP_cons]
      by_cases h : exceptPrice req o
      · by_cases hb : priceBucket req o = k <;>
          simp [h, hb, handle_price_range, lookupCount_incKey,
            (by omega : ∀ x y : Nat, x + 1 + y = x + y + 1)] <;> omega
      · simp [h]

theorem foldl_km_map (req : RequestOffer) :
    ∀ (offers : List Offer) (st : FacetState) (k : Nat),
      lookupCount (offers.foldl (processOffer req) st).free_kilometers_interval_mapping k =
        lookupCount st.free_kilometers_interval_mapping k +
          offers.countP (fun o => exceptKm req o && decide (kmBucket req o = k)) := by
  intro offers
  induction offers with
  | nil => intro st k; simp
  | cons o rest ih =>
      intro st k
      rw [List.foldl_cons, ih, processOffer_eq, List.countP_cons]
      by_cases h : exceptKm req o
      · by_cases hb : kmBucket req o = k <;>
          simp [h, hb, handle_free_kilometers_range, lookupCount_incKey,
            (by omega : ∀ x y : Nat, x + 1 + y = x + y + 1)] <;> omega
      · simp [h]

theorem foldl_seats_map (req : RequestOffer) :
    ∀ (offers : List Offer) (st : FacetState) (k : Nat),
      lookupCount (offers.foldl (processOffer req) st).seats_count_map k =
        lookupCount st.seats_count_map k +
          offers.countP (fun o => exceptSeats req o && decide (o.number_seats = k)) := by
  intro offers
  induction offers with
  | nil => intro st k; simp
  | cons o rest ih =>
      intro st k
      rw [List.foldl_cons, ih, processOffer_eq, List.countP_cons]
      by_cases h : exceptSeats req o
      · by_cases hb : o.number_seats = k <;>
          simp [h, hb, handle_seats_count, lookupCount_incKey,
            (by omega : ∀ x y : Nat, x + 1 + y = x + y + 1)] <;> omega
      · simp [h]

/-- C1: all-but-self facet law.  Over the candidate offers reaching predicate
evaluation, the result list contains exactly the offers passing all five
predicate flags, and each facet aggregate counts exactly the offers passing
every flag except (possibly) the one of its own dimension: an offer failing
two or more flags is counted nowhere, an offer failing exactly one flag is
counted only in that dimension's aggregate, and an offer passing all five is
in the result list and every aggregate. -/
theorem all_but_self_facet_law (req : RequestOffer) (offers : List Offer) :
    (processOffers req offers).filtered_offers = offers.filter (allFive req) ∧
    (processOffers req offers).vollkasko_count.true_count =
      offers.countP (fun o => exceptVollkasko req o && o.has_vollkasko) ∧
    (processOffers req offers).vollkasko_count.false_count =
      offers.countP (fun o => exceptVollkasko req o && !o.has_vollkasko) ∧
    (processOffers req offers).car_type_count.small =
      offers.countP (fun o => exceptCarType req o && decide (o.car_type = CarType.Small)) ∧
    (processOffers req offers).car_type_count.sports =
      offers.countP (fun o => exceptCarType req o && decide (o.car_type = CarType.Sports)) ∧
    (processOffers req offers).car_type_count.luxury =
      offers.countP (fun o => exceptCarType req o && decide (o.car_type = CarType.Luxury)) ∧
    (processOffers req offers).car_type_count.family =
      offers.countP (fun o => exceptCarType req o && decide (o.car_type = CarType.Family)) ∧
    (∀ k, lookupCount (processOffers req offers).price_range_interval_mapping k =
      offers.countP (fun o => exceptPrice req o && decide (priceBucket req o = k))) ∧
    (∀ k, lookupCount (processOffers req offers).free_kilometers_interval_mapping k =
      offers.countP (fun o => exceptKm req o && decide (kmBucket req o = k))) ∧
    (∀ k, lookupCount (processOffers req offers).seats_count_map k =
      offers.countP (fun o => exceptSeats req o && decide (o.number_seats = k))) := by
  unfold processOffers
  refine ⟨?_, ?_, ?_, ?_, ?_, ?_, ?_, ?_, ?_, ?_⟩
  · simpa [FacetState.init] using foldl_filtered req offers FacetState.init
  · simpa [FacetState.init] using foldl_vollkasko_true req offers FacetState.init
  · simpa [FacetState.init] using foldl_vollkasko_false req offers FacetState.init
  · simpa [FacetState.init] using foldl_car_small req offers FacetState.init
  · simpa [FacetState.init] using foldl_car_sports req offers FacetState.init
  · simpa [FacetState.init] using foldl_car_luxury req offers FacetState.init
  · simpa [FacetState.init] using foldl_car_family req offers FacetState.init
  · intro k; simpa [FacetState.init, lookupCount] using foldl_price_map req offers FacetState.init k
  · intro k; simpa [FacetState.init, lookupCount] using foldl_km_map req offers FacetState.init k
  · intro k; simpa [FacetState.init, lookupCount] using foldl_seats_map req offers FacetState.init k

/-! ### Histogram emission (`db_manager.rs` lines 159-178) -/

/-- Well-formedness of a histogram map: distinct keys and positive counts
(every entry was created with count 1 and only ever incremented). -/
def MapOK (m : List (Nat × Nat)) : Prop :=
  (keysOf m).Nodup ∧ ∀ e ∈ m, 0 < e.2

theorem mapOK_incKey (m : List (Nat × Nat)) (k : Nat) (h : MapOK m) :
    MapOK (incKey m k) :=
  ⟨nodup_keys_incKey m k h.1, pos_values_incKey m k h.2⟩

theorem mapOK_init : MapOK [] := ⟨List.nodup_nil, by simp⟩

theorem foldl_price_mapOK (req : RequestOffer) :
    ∀ (offers : List Offer) (st : FacetState),
      MapOK st.price_range_interval_mapping →
      MapOK (offers.foldl (processOffer req) st).price_range_interval_mapping := by
  intro offers
  induction offers with
  | nil => intro st h; simpa using h
  | cons o rest ih =>
      intro st h
      rw [List.foldl_cons]
      apply ih
      rw [processOffer_eq]
      by_cases hc : exceptPrice req o <;>
        simp [hc, handle_price_range, mapOK_incKey _ _ h, h]

theorem foldl_km_mapOK (req : RequestOffer) :
    ∀ (offers : List Offer) (st : FacetState),
      MapOK st.free_kilometers_interval_mapping →
      MapOK (offers.foldl (processOffer req) st).free_kilometers_interval_mapping := by
  intro offers
  induction offers with
  | nil => intro st h; simpa using h
  | cons o rest ih =>
      intro st h
      rw [List.foldl_cons]
      apply ih
      rw [processOffer_eq]
      by_cases hc : exceptKm req o <;>
        simp [hc, handle_free_kilometers_range, mapOK_incKey _ _ h, h]

/-- The ascending key iteration `mapping.keys().sorted()` of the emission
loops. -/
def sortedKeys (m : List (Nat × Nat)) : List Nat :=
  (keysOf m).mergeSort Nat.ble

theorem nat_ble_trans : ∀ a b c : Nat, Nat.ble a b = true → Nat.ble b c = true →
    Nat.ble a c = true := by
  intro a b c hab hbc
  simp only [Nat.ble_eq] at *
  omega

theorem nat_ble_total : ∀ a b : Nat, (Nat.ble a b || Nat.ble b a) = true := by
  intro a b
  rcases Nat.le_total a b with h | h <;> simp [Nat.ble_eq, h]

theorem sortedKeys_pairwise_lt (m : List (Nat × Nat)) (h : (keysOf m).Nodup) :
    (sortedKeys m).Pairwise (· < ·) := by
  have hs := List.sorted_mergeSort nat_ble_trans nat_ble_total (keysOf m)
  have hperm := List.mergeSort_perm (keysOf m) Nat.ble
  have hnd : (sortedKeys m).Nodup := (hperm.nodup_iff).mpr h
  exact ((hs.and hnd).imp (fun hab =>
    Nat.lt_of_le_of_ne (Nat.ble_eq.mp hab.1) hab.2))

theorem mem_sortedKeys (m : List (Nat × Nat)) (k : Nat) :
    k ∈ sortedKeys m ↔ k ∈ keysOf m :=
  (List.mergeSort_perm (keysOf m) Nat.ble).mem_iff

/-- The price-range emission loop (`db_manager.rs` lines 159-168):
iterate the keys ascending and push `{start: key, end: key + width, count}`. -/
def emitPriceRanges (req : RequestOffer) (m : List (Nat × Nat)) : List PriceRange :=
  (sortedKeys m).map (fun key =>
    { start := key, end_ := key + req.price_range_width, count := lookupCount m key })

/-- The kilometre-range emission loop (`db_manager.rs` lines 170-178). -/
def emitFreeKilometerRanges (req : RequestOffer) (m : List (Nat × Nat)) :
    List FreeKilometerRange :=
  (sortedKeys m).map (fun key =>
    { start := key, end_ := key + req.min_free_kilometer_width, count := lookupCount m key })

/-- The seat-count emission (`db_manager.rs` lines 190-196): the map's entries
in iteration order. -/
def emitSeatCounts (m : List (Nat × Nat)) : List SeatCount :=
  m.map (fun e => { number_seats := e.1, count := e.2 })

/-- The price histogram of a query, as built by `query_for`. -/
def price_ranges_of (req : RequestOffer) (offers : List Offer) : List PriceRange :=
  emitPriceRanges req (processOffers req offers).price_range_interval_mapping

/-- The free-kilometre histogram of a query, as built by `query_for`. -/
def kilometer_ranges_of (req : RequestOffer) (offers : List Offer) : List FreeKilometerRange :=
  emitFreeKilometerRanges req (processOffers req offers).free_kilometers_interval_mapping

/-- The C7 property: bucket arithmetic, shape, positivity, counts and
ascending order of both emitted histograms of a query. -/
def HistogramSpec (req : RequestOffer) (offers : List Offer) : Prop :=
  (∀ o : Offer,
    priceBucket req o ≤ o.price ∧ o.price < priceBucket req o + req.price_range_width) ∧
  (∀ o : Offer,
    kmBucket req o ≤ o.free_kilometers ∧
      o.free_kilometers < kmBucket req o + req.min_free_kilometer_width) ∧
  (price_ranges_of req offers).Pairwise (fun a b => a.start < b.start) ∧
  (∀ e ∈ price_ranges_of req offers,
    e.end_ = e.start + req.price_range_width ∧ 0 < e.count ∧
      e.count = offers.countP
        (fun o => exceptPrice req o && decide (priceBucket req o = e.start))) ∧
  (∀ k, (∃ e ∈ price_ranges_of req offers, e.start = k) ↔
    0 < offers.countP (fun o => exceptPrice req o && decide (priceBucket req o = k))) ∧
  (kilometer_ranges_of req offers).Pairwise (fun a b => a.start < b.start) ∧
  (∀ e ∈ kilometer_ranges_of req offers,
    e.end_ = e.start + req.min_free_kilometer_width ∧ 0 < e.count ∧
      e.count = offers.countP
        (fun o => exceptKm req o && decide (kmBucket req o = e.start))) ∧
  (∀ k, (∃ e ∈ kilometer_ranges_of req offers, e.start = k) ↔
    0 < offers.countP (fun o => exceptKm req o && decide (kmBucket req o = k)))

/-- C7: histogram bucketing.  With positive widths, every value lands in the
bucket `floor(v/w)*w` containing it; each emitted range entry is
`{start, start + w, count}` with a positive count equal to the number of
all-but-self offers in that bucket, an entry exists for a key exactly when
some such offer has it, and both histograms are sorted by `start`
ascending. -/
theorem histogram_bucketing_law (req : RequestOffer) (offers : List Offer)
    (hw : 0 < req.price_range_width) (hkw : 0 < req.min_free_kilometer_width) :
    HistogramSpec req offers := by
  have hpOK : MapOK (processOffers req offers).price_range_interval_mapping := by
    apply foldl_price_mapOK req offers FacetState.init
    simpa [FacetState.init] using mapOK_init
  have hkOK : MapOK (processOffers req offers).free_kilometers_interval_mapping := by
    apply foldl_km_mapOK req offers FacetState.init
    simpa [FacetState.init] using mapOK_init
  have hpcnt : ∀ k, lookupCount (processOffers req offers).price_range_interval_mapping k =
      offers.countP (fun o => exceptPrice req o && decide (priceBucket req o = k)) := by
    intro k
    simpa [FacetState.init, lookupCount] using foldl_price_map req offers FacetState.init k
  have hkcnt : ∀ k, lookupCount (processOffers req offers).free_kilometers_interval_mapping k =
      offers.countP (fun o => exceptKm req o && decide (kmBucket req o = k)) := by
    intro k
    simpa [FacetState.init, lookupCount] using foldl_km_map req offers FacetState.init k
  refine ⟨?_, ?_, ?_, ?_, ?_, ?_, ?_, ?_⟩
  · intro o
    exact ⟨Nat.div_mul_le_self _ _, Nat.lt_div_mul_add hw⟩
  · intro o
    exact ⟨Nat.div_mul_le_self _ _, Nat.lt_div_mul_add hkw⟩
  · unfold price_ranges_of emitPriceRanges
    rw [List.pairwise_map]
    exact sortedKeys_pairwise_lt _ hpOK.1
  · intro e he
    unfold price_ranges_of emitPriceRanges at he
    rcases List.mem_map.mp he with ⟨k, hkm, rfl⟩
    refine ⟨rfl, ?_, hpcnt k⟩
    exact (mem_keys_iff_lookup_pos _ _ hpOK.2).mp ((mem_sortedKeys _ _).mp hkm)
  · intro k
    constructor
    · rintro ⟨e, he, hstart⟩
      unfold price_ranges_of emitPriceRanges at he
      rcases List.mem_map.mp he with ⟨k', hkm, rfl⟩
      rcases hstart
      rw [← hpcnt k']
      exact (mem_keys_iff_lookup_pos _ _ hpOK.2).mp ((mem_sortedKeys _ _).mp hkm)
    · intro hpos
      rw [← hpcnt k] at hpos
      have hmem : k ∈ sortedKeys (processOffers req offers).price_range_interval_mapping :=
        (mem_sortedKeys _ _).mpr ((mem_keys_iff_lookup_pos _ _ hpOK.2).mpr hpos)
      exact ⟨_, List.mem_map_of_mem _ hmem, rfl⟩
  · unfold kilometer_ranges_of emitFreeKilometerRanges
    rw [List.pairwise_map]
    exact sortedKeys_pairwise_lt _ hkOK.1
  · intro e he
    unfold kilometer_ranges_of emitFreeKilometerRanges at he
    rcases List.mem_map.mp he with ⟨k, hkm, rfl⟩
    refine ⟨rfl, ?_, hkcnt k⟩
    exact (mem_keys_iff_lookup_pos _ _ hkOK.2).mp ((mem_sortedKeys _ _).mp hkm)
  · intro k
    constructor
    · rintro ⟨e, he, hstart⟩
      unfold kilometer_ranges_of emitFreeKilometerRanges at he
      rcases List.mem_map.mp he with ⟨k', hkm, rfl⟩
      rcases hstart
      rw [← hkcnt k']
      exact (mem_keys_iff_lookup_pos _ _ hkOK.2).mp ((mem_sortedKeys _ _).mp hkm)
    · intro hpos
      rw [← hkcnt k] at hpos
      have hmem : k ∈ sortedKeys (processOffers req offers).free_kilometers_interval_mapping :=
        (mem_sortedKeys _ _).mpr ((mem_keys_iff_lookup_pos _ _ hkOK.2).mpr hpos)
      exact ⟨_, List.mem_map_of_mem _ hmem, rfl⟩

/-- Witness for C7 at a concrete request (widths 500 and 50) and the
scenario-S2 offers of the spec. -/
theorem histogram_bucketing_law_witness :
    HistogramSpec
      { region_id := 0, time_range_start := 0, time_range_end := 86400000, number_days := 1,
        sort_order := SortOrder.PriceAsc, page := 0, page_size := 10,
        price_range_width := 500, min_free_kilometer_width := 50,
        min_number_seats := none, min_price := none, max_price := some 1100,
        car_type := none, only_vollkasko := none, min_free_kilometer := none }
      [{ id := [97], data := [], region_id := 58, start_date := 0, end_date := 86400000,
         number_seats := 4, price := 900, car_type := CarType.Small,
         has_vollkasko := true, free_kilometers := 100, idx := 0 },
       { id := [98], data := [], region_id := 58, start_date := 0, end_date := 86400000,
         number_seats := 4, price := 1100, car_type := CarType.Sports,
         has_vollkasko := false, free_kilometers := 120, idx := 1 }] :=
  histogram_bucketing_law _ _ (by decide) (by decide)

/-! ### Sorting and pagination (`db_manager.rs` lines 323-357) -/

/-- Byte-wise lexicographic comparison of two identifiers, the semantics of
Rust `String::cmp` on the textual ids (UTF-8 byte order). -/
def idCmp : List Nat → List Nat → Ordering
  | [], [] => Ordering.eq
  | [], _ :: _ => Ordering.lt
  | _ :: _, [] => Ordering.gt
  | a :: as, b :: bs =>
      if compare a b = Ordering.eq then idCmp as bs else compare a b

theorem if_eq_isLE (c d : Ordering) :
    ((if c = Ordering.eq then d else c).isLE = true) ↔
      (c = Ordering.lt ∨ (c = Ordering.eq ∧ d.isLE = true)) := by
  cases c <;> simp [Ordering.isLE]

theorem idCmp_cons_isLE (x y : Nat) (xs ys : List Nat) :
    (idCmp (x :: xs) (y :: ys)).isLE = true ↔
      (x < y ∨ (x = y ∧ (idCmp xs ys).isLE = true)) := by
  rw [show idCmp (x :: xs) (y :: ys) =
        if compare x y = Ordering.eq then idCmp xs ys else compare x y from rfl,
      if_eq_isLE, Nat.compare_eq_lt, Nat.compare_eq_eq]

theorem idCmp_isLE_trans : ∀ a b c : List Nat, (idCmp a b).isLE = true →
    (idCmp b c).isLE = true → (idCmp a c).isLE = true := by
  intro a
  induction a with
  | nil =>
      intro b c _ _
      cases c <;> rfl
  | cons x xs ih =>
      intro b c h1 h2
      cases b with
      | nil => simp [idCmp, Ordering.isLE] at h1
      | cons y ys =>
          cases c with
          | nil => simp [idCmp, Ordering.isLE] at h2
          | cons z zs =>
              rw [idCmp_cons_isLE] at h1 h2 ⊢
              rcases h1 with h1 | ⟨e1, r1⟩ <;> rcases h2 with h2 | ⟨e2, r2⟩
              · exact Or.inl (by omega)
              · exact Or.inl (by omega)
              · exact Or.inl (by omega)
              · exact Or.inr ⟨by omega, ih ys zs r1 r2⟩

theorem idCmp_isLE_total : ∀ a b : List Nat,
    (idCmp a b).isLE = true ∨ (idCmp b a).isLE = true := by
  intro a
  induction a with
  | nil =>
      intro b
      cases b with
      | nil => exact Or.inl rfl
      | cons y ys => exact Or.inl rfl
  | cons x xs ih =>
      intro b
      cases b with
      | nil => exact Or.inr rfl
      | cons y ys =>
          rw [idCmp_cons_isLE, idCmp_cons_isLE]
          rcases Nat.lt_trichotomy x y with h | h | h
          · exact Or.inl (Or.inl h)
          · rcases ih ys with hh | hh
            · exact Or.inl (Or.inr ⟨h, hh⟩)
            · exact Or.inr (Or.inr ⟨h.symm, hh⟩)
          · exact Or.inr (Or.inl h)

/-- The `price-asc` comparator of `DBManager::sort_orders_and_paginate`
(lines 332-338): compare prices, tie-break by `id`. -/
def cmpOffersAsc (a b : Offer) : Ordering :=
  if compare a.price b.price = Ordering.eq then idCmp a.id b.id
  else compare a.price b.price

/-- The `price-desc` comparator (lines 339-345): compare prices reversed,
tie-break by `id` in the same (ascending) direction. -/
def cmpOffersDesc (a b : Offer) : Ordering :=
  if compare b.price a.price = Ordering.eq then idCmp a.id b.id
  else compare b.price a.price

theorem cmpOffersAsc_isLE (a b : Offer) :
    (cmpOffersAsc a b).isLE = true ↔
      (a.price < b.price ∨ (a.price = b.price ∧ (idCmp a.id b.id).isLE = true)) := by
  rw [show cmpOffersAsc a b =
        if compare a.price b.price = Ordering.eq then idCmp a.id b.id
        else compare a.price b.price from rfl,
      if_eq_isLE, Nat.compare_eq_lt, Nat.compare_eq_eq]

theorem cmpOffersDesc_isLE (a b : Offer) :
    (cmpOffersDesc a b).isLE = true ↔
      (b.price < a.price ∨ (a.price = b.price ∧ (idCmp a.id b.id).isLE = true)) := by
  rw [show cmpOffersDesc a b =
        if compare b.price a.price = Ordering.eq then idCmp a.id b.id
        else compare b.price a.price from rfl,
      if_eq_isLE, Nat.compare_eq_lt, Nat.compare_eq_eq]
  constructor
  · rintro (h | ⟨h, hh⟩)
    · exact Or.inl h
    · exact Or.inr ⟨h.symm, hh⟩
  · rintro (h | ⟨h, hh⟩)
    · exact Or.inl h
    · exact Or.inr ⟨h.symm, hh⟩

theorem cmpOffersAsc_trans (a b c : Offer) (h1 : (cmpOffersAsc a b).isLE = true)
    (h2 : (cmpOffersAsc b c).isLE = true) : (cmpOffersAsc a c).isLE = true := by
  rw [cmpOffersAsc_isLE] at h1 h2 ⊢
  rcases h1 with h1 | ⟨e1, r1⟩ <;> rcases h2 with h2 | ⟨e2, r2⟩
  · exact Or.inl (by omega)
  · exact Or.inl (by omega)
  · exact Or.inl (by omega)
  · exact Or.inr ⟨by omega, idCmp_isLE_trans _ _ _ r1 r2⟩

theorem cmpOffersAsc_total (a b : Offer) :
    ((cmpOffersAsc a b).isLE || (cmpOffersAsc b a).isLE) = true := by
  rw [Bool.or_eq_true, cmpOffersAsc_isLE, cmpOffersAsc_isLE]
  rcases Nat.lt_trichotomy a.price b.price with h | h | h
  · exact Or.inl (Or.inl h)
  · rcases idCmp_isLE_total a.id b.id with hh | hh
    · exact Or.inl (Or.inr ⟨h, hh⟩)
    · exact Or.inr (Or.inr ⟨h.symm, hh⟩)
  · exact Or.inr (Or.inl h)

theorem cmpOffersDesc_trans (a b c : Offer) (h1 : (cmpOffersDesc a b).isLE = true)
    (h2 : (cmpOffersDesc b c).isLE = true) : (cmpOffersDesc a c).isLE = true := by
  rw [cmpOffersDesc_isLE] at h1 h2 ⊢
  rcases h1 with h1 | ⟨e1, r1⟩ <;> rcases h2 with h2 | ⟨e2, r2⟩
  · exact Or.inl (by omega)
  · exact Or.inl (by omega)
  · exact Or.inl (by omega)
  · exact Or.inr ⟨by omega, idCmp_isLE_trans _ _ _ r1 r2⟩

theorem cmpOffersDesc_total (a b : Offer) :
    ((cmpOffersDesc a b).isLE || (cmpOffersDesc b a).isLE) = true := by
  rw [Bool.or_eq_true, cmpOffersDesc_isLE, cmpOffersDesc_isLE]
  rcases Nat.lt_trichotomy a.price b.price with h | h | h
  · exact Or.inr (Or.inl h)
  · rcases idCmp_isLE_total a.id b.id with hh | hh
    · exact Or.inl (Or.inr ⟨h, hh⟩)
    · exact Or.inr (Or.inr ⟨h.symm, hh⟩)
  · exact Or.inl (Or.inl h)

/-- The sorted result list before pagination: Rust's stable `sort_by` with
the requested comparator, modelled by the stable `mergeSort`. -/
def sortedResult (req : RequestOffer) (offers : List Offer) : List Offer :=
  match req.sort_order with
  | SortOrder.PriceAsc => offers.mergeSort (fun a b => (cmpOffersAsc a b).isLE)
  | SortOrder.PriceDesc => offers.mergeSort (fun a b => (cmpOffersDesc a b).isLE)

/-- The `{ID, data}` projection of lines 352-355. -/
def toResponseOffer (o : Offer) : ResponseOffer := { ID := o.id, data := o.data }

/-- `DBManager::sort_orders_and_paginate` (lines 323-357): early-out on an
empty input, sort by the requested comparator, then
`skip(page * page_size).take(page_size)` and project to `{ID, data}`. -/
def sort_orders_and_paginate (offers : List Offer) (req : RequestOffer) :
    List ResponseOffer :=
  if offers.isEmpty then []
  else
    (((sortedResult req offers).drop (req.page * req.page_size)).take
        req.page_size).map toResponseOffer

/-- The sortedness property claimed for each direction: price strictly
ordered in the requested direction, ties broken by ascending id. -/
def priceIdSorted : SortOrder → Offer → Offer → Prop
  | SortOrder.PriceAsc => fun a b =>
      a.price < b.price ∨ (a.price = b.price ∧ (idCmp a.id b.id).isLE = true)
  | SortOrder.PriceDesc => fun a b =>
      b.price < a.price ∨ (a.price = b.price ∧ (idCmp a.id b.id).isLE = true)

/-- C5: the sorted result list is a permutation of the offers passing all
five predicates, ordered by price ascending or descending according to
`sort_order`, with ties in price ordered by id ascending (byte-wise
lexicographic) in both directions. -/
theorem sort_by_price_then_id (req : RequestOffer) (offers : List Offer) :
    (sortedResult req offers).Perm offers ∧
    (sortedResult req offers).Pairwise (priceIdSorted req.sort_order) := by
  unfold sortedResult
  cases hso : req.sort_order
  · refine ⟨List.mergeSort_perm _ _, ?_⟩
    have hp := List.sorted_mergeSort cmpOffersAsc_trans cmpOffersAsc_total offers
    exact hp.imp (fun h => (cmpOffersAsc_isLE _ _).mp h)
  · refine ⟨List.mergeSort_perm _ _, ?_⟩
    have hp := List.sorted_mergeSort cmpOffersDesc_trans cmpOffersDesc_total offers
    exact hp.imp (fun h => (cmpOffersDesc_isLE _ _).mp h)

theorem sortedResult_perm (req : RequestOffer) (offers : List Offer) :
    (sortedResult req offers).Perm offers := by
  unfold sortedResult
  cases req.sort_order <;> exact List.mergeSort_perm _ _

theorem flatMap_range_slices {α : Type} (l : List α) (s : Nat) :
    ∀ n : Nat, (List.range n).flatMap (fun p => (l.drop (p * s)).take s) = l.take (n * s) := by
  intro n
  induction n with
  | zero => simp
  | succ n ih =>
      rw [List.range_succ, List.flatMap_append, ih]
      simp only [List.flatMap_cons, List.flatMap_nil, List.append_nil]
      rw [Nat.succ_mul, List.take_add]

/-- The C6 property: the returned page is the contiguous slice
`[page*page_size, page*page_size + page_size)` of the sorted result, and the
concatenation of pages `0..n-1` (enough pages to cover the result) is exactly
the full sorted result list. -/
def PaginationSpec (req : RequestOffer) (offers : List Offer) (n : Nat) : Prop :=
  sort_orders_and_paginate offers req =
    (((sortedResult req offers).drop (req.page * req.page_size)).take
        req.page_size).map toResponseOffer ∧
  (List.range n).flatMap (fun p => sort_orders_and_paginate offers { req with page := p }) =
    (sortedResult req offers).map toResponseOffer

/-- C6: pagination is a slice of the sorted result, and concatenating the
pages of otherwise-identical queries yields the full sorted result with no
duplicates and no gaps. -/
theorem pagination_is_slicing (req : RequestOffer) (offers : List Offer) (n : Nat)
    (hs : 0 < req.page_size) (hn : offers.length ≤ n * req.page_size) :
    PaginationSpec req offers n := by
  constructor
  · unfold sort_orders_and_paginate
    cases h : offers.isEmpty
    · simp [h]
    · have hnil : offers = [] := List.isEmpty_iff.mp h
      subst hnil
      simp only [if_pos rfl]
      unfold sortedResult
      cases req.sort_order <;> simp
  · cases h : offers.isEmpty
    · have hpage : ∀ p : Nat, sort_orders_and_paginate offers { req with page := p } =
          ((List.map toResponseOffer (sortedResult req offers)).drop
              (p * req.page_size)).take req.page_size := by
        intro p
        simp only [sort_orders_and_paginate, h, Bool.false_eq_true, if_false]
        show ((((sortedResult req offers).drop (p * req.page_size)).take
            req.page_size)).map toResponseOffer = _
        rw [List.map_take, List.map_drop]
      have hfm : (List.range n).flatMap
            (fun p => sort_orders_and_paginate offers { req with page := p }) =
          (List.range n).flatMap (fun p =>
            ((List.map toResponseOffer (sortedResult req offers)).drop
                (p * req.page_size)).take req.page_size) :=
        congrArg (List.flatMap (List.range n)) (funext hpage)
      rw [hfm, flatMap_range_slices]
      apply List.take_of_length_le
      rw [List.length_map, (sortedResult_perm req offers).length_eq]
      exact hn
    · have hnil : offers = [] := List.isEmpty_iff.mp h
      subst hnil
      have hsr : sortedResult req ([] : List Offer) = [] := by
        unfold sortedResult
        cases req.sort_order <;> simp
      simp [sort_orders_and_paginate, hsr]

/-- Witness for C6 at the spec's scenario-S6 offers (prices 10,10,20,30 with
ids b,a,c,d), page size 2 and two pages. -/
theorem pagination_is_slicing_witness :
    PaginationSpec
      { region_id := 0, time_range_start := 0, time_range_end := 86400000, number_days := 1,
        sort_order := SortOrder.PriceAsc, page := 0, page_size := 2,
        price_range_width := 500, min_free_kilometer_width := 50,
        min_number_seats := none, min_price := none, max_price := none,
        car_type := none, only_vollkasko := none, min_free_kilometer := none }
      [{ id := [98], data := [], region_id := 58, start_date := 0, end_date := 86400000,
         number_seats := 4, price := 10, car_type := CarType.Small,
         has_vollkasko := true, free_kilometers := 100, idx := 0 },
       { id := [97], data := [], region_id := 58, start_date := 0, end_date := 86400000,
         number_seats := 4, price := 10, car_type := CarType.Small,
         has_vollkasko := true, free_kilometers := 100, idx := 1 },
       { id := [99], data := [], region_id := 58, start_date := 0, end_date := 86400000,
         number_seats := 4, price := 20, car_type := CarType.Small,
         has_vollkasko := true, free_kilometers := 100, idx := 2 },
       { id := [100], data := [], region_id := 58, start_date := 0, end_date := 86400000,
         number_seats := 4, price := 30, car_type := CarType.Small,
         has_vollkasko := true, free_kilometers := 100, idx := 3 }] 2 :=
  pagination_is_slicing _ _ 2 (by decide) (by decide)

/-! ### The day-count index (`number_of_days.rs`) -/

/-- `NumberOfDaysIndex` from `number_of_days.rs`: `HashMap<u32, Vec<u32>>`
from day count to the offer indices with that duration, modelled as a total
function with absent keys reading as the empty bucket (a `get` miss and an
empty bucket are indistinguishable to `filter_offers`). -/
structure NumberOfDaysIndex where
  map : Nat → List Nat

/-- `NumberOfDaysIndex::new` (lines 9-13). -/
def NumberOfDaysIndex.new : NumberOfDaysIndex := ⟨fun _ => []⟩

/-- The duration key of an offer:
`(offer.end_date - offer.start_date) / (1000 * 60 * 60 * 24)`
(`NumberOfDaysIndex::index_offer`, line 25). -/
def daysKey (o : Offer) : Nat :=
  (o.end_date - o.start_date) / (1000 * 60 * 60 * 24)

/-- `NumberOfDaysIndex::index_offer` (lines 24-27): push `offer.idx` onto the
bucket keyed by the duration key. -/
def NumberOfDaysIndex.index_offer (idx : NumberOfDaysIndex) (o : Offer) : NumberOfDaysIndex :=
  ⟨fun d => if d = daysKey o then idx.map d ++ [o.idx] else idx.map d⟩

/-- `NumberOfDaysIndex::filter_offers` (lines 15-22): keep the candidate
indices contained in the bucket of `days` (the empty set on a map miss). -/
def NumberOfDaysIndex.filter_offers (idx : NumberOfDaysIndex) (days : Nat)
    (offers : List Nat) : List Nat :=
  offers.filter (fun offer => (idx.map days).contains offer)

/-- The day-count index built by indexing every offer of the store once, in
store order (the ingest path calls `index_offer` per inserted offer). -/
def buildDaysIndex (store : List Offer) : NumberOfDaysIndex :=
  store.foldl NumberOfDaysIndex.index_offer NumberOfDaysIndex.new

theorem mem_foldl_index_offer : ∀ (store : List Offer) (st : NumberOfDaysIndex) (d i : Nat),
    i ∈ (store.foldl NumberOfDaysIndex.index_offer st).map d ↔
      i ∈ st.map d ∨ ∃ o ∈ store, o.idx = i ∧ daysKey o = d := by
  intro store
  induction store with
  | nil => intro st d i; simp
  | cons o rest ih =>
      intro st d i
      rw [List.foldl_cons, ih]
      have hst : i ∈ (NumberOfDaysIndex.index_offer st o).map d ↔
          i ∈ st.map d ∨ (d = daysKey o ∧ i = o.idx) := by
        unfold NumberOfDaysIndex.index_offer
        by_cases hd : d = daysKey o <;> simp [hd]
      rw [hst, List.exists_mem_cons_iff]
      constructor
      · rintro ((h | ⟨hd, hi⟩) | h)
        · exact Or.inl h
        · exact Or.inr (Or.inl ⟨hi.symm, hd.symm⟩)
        · exact Or.inr (Or.inr h)
      · rintro (h | ⟨hi, hd⟩ | h)
        · exact Or.inl (Or.inl h)
        · exact Or.inl (Or.inr ⟨hd.symm, hi.symm⟩)
        · exact Or.inr h

/-- The store-side invariant: the `idx` field of each stored offer is its
position in the dense store (spec section 3). -/
def storeConsistent (store : List Offer) : Prop :=
  ∀ (i : Nat) (o : Offer), store[i]? = some o → o.idx = i

/-- Membership of a candidate index in the day-`d` bucket, phrased on the
store: the index is in range and its offer's duration key is `d`. -/
def daysFilterPred (store : List Offer) (d : Nat) (i : Nat) : Bool :=
  match store[i]? with
  | some o => decide (daysKey o = d)
  | none => false

theorem mem_buildDaysIndex (store : List Offer) (hc : storeConsistent store)
    (d i : Nat) :
    i ∈ (buildDaysIndex store).map d ↔ daysFilterPred store d i = true := by
  unfold buildDaysIndex
  rw [mem_foldl_index_offer]
  simp only [NumberOfDaysIndex.new, List.not_mem_nil, false_or]
  constructor
  · rintro ⟨o, ho, hidx, hd⟩
    rcases List.getElem?_of_mem ho with ⟨j, hj⟩
    have : o.idx = j := hc j o hj
    rw [daysFilterPred, show store[i]? = some o from by rw [← hidx, this]; exact hj]
    simpa using hd
  · intro h
    unfold daysFilterPred at h
    rcases hio : store[i]? with _ | o
    · rw [hio] at h; simp at h
    · rw [hio] at h
      simp only [decide_eq_true_eq] at h
      exact ⟨o, List.getElem?_mem hio, hc i o hio, h⟩

/-- C8: duration filtering.  An offer is registered under
`floor((end - start) / 86 400 000)`; `filter_offers` keeps exactly the
candidate indices whose registered day count equals the requested one,
preserves the relative candidate order (the result is a sublist), and
yields nothing when no stored offer has that day count. -/
theorem duration_filter_exact (store : List Offer) (hc : storeConsistent store)
    (d : Nat) (candidates : List Nat) :
    (∀ o : Offer, daysKey o = (o.end_date - o.start_date) / 86400000) ∧
    (buildDaysIndex store).filter_offers d candidates =
      candidates.filter (daysFilterPred store d) ∧
    ((buildDaysIndex store).filter_offers d candidates).Sublist candidates ∧
    ((∀ o ∈ store, daysKey o ≠ d) →
      (buildDaysIndex store).filter_offers d candidates = []) := by
  refine ⟨fun o => rfl, ?_, ?_, ?_⟩
  · unfold NumberOfDaysIndex.filter_offers
    apply List.filter_congr
    intro i _
    rw [Bool.eq_iff_iff, List.elem_iff]
    exact mem_buildDaysIndex store hc d i
  · exact List.filter_sublist _
  · intro hnone
    unfold NumberOfDaysIndex.filter_offers
    rw [List.filter_eq_nil_iff]
    intro i _ hmem
    rw [List.elem_iff, mem_buildDaysIndex store hc d i] at hmem
    unfold daysFilterPred at hmem
    rcases hio : store[i]? with _ | o
    · rw [hio] at hmem; simp at hmem
    · rw [hio] at hmem
      simp only [decide_eq_true_eq] at hmem
      exact hnone o (List.getElem?_mem hio) hmem

/-- A concrete one-offer store used by the C8 witness: a two-day offer
(scenario S5) whose `idx` is its store position. -/
def sampleTwoDayStore : List Offer :=
  [{ id := [97], data := [], region_id := 58, start_date := 0,
     end_date := 172800000, number_seats := 4, price := 1000,
     car_type := CarType.Small, has_vollkasko := true,
     free_kilometers := 100, idx := 0 }]

/-- Witness for C8: the two-day offer store, filtered at day count 1. -/
theorem duration_filter_exact_witness :
    (∀ o : Offer, daysKey o = (o.end_date - o.start_date) / 86400000) ∧
    (buildDaysIndex sampleTwoDayStore).filter_offers 1 [0] =
      [0].filter (daysFilterPred sampleTwoDayStore 1) ∧
    ((buildDaysIndex sampleTwoDayStore).filter_offers 1 [0]).Sublist [0] ∧
    ((∀ o ∈ sampleTwoDayStore, daysKey o ≠ 1) →
      (buildDaysIndex sampleTwoDayStore).filter_offers 1 [0] = []) :=
  duration_filter_exact sampleTwoDayStore (by
    intro i o h
    match i, h with
    | 0, h =>
        injection h with h
        exact h ▸ rfl
    | n + 1, h => exact Option.noConfusion h) 1 [0]

/-! ### The region hierarchy (`region_hierarchy.rs`) -/

/-- `RegionTreeElement` from `region_hierarchy.rs` (lines 5-9): the offers
registered directly at a region and the optional child-id list (`None` until
a first child is pushed during population). -/
structure RegionTreeElement where
  offers : List Nat
  sub_regions : Option (List Nat)
deriving DecidableEq, Repr

/-- The `Default` value of `RegionTreeElement`. -/
def RegionTreeElement.dflt : RegionTreeElement := { offers := [], sub_regions := none }

/-- `RegionTree` from `region_hierarchy.rs` (lines 11-14). -/
structure RegionTree where
  regions : List RegionTreeElement
deriving DecidableEq, Repr

/-- The `Region` description deserialized from the embedded JSON
(`region_hierarchy.rs` lines 95-99): an id and its subregions. -/
inductive Region where
  | mk (id : Nat) (subregions : List Region)

/-- The region's `id` field. -/
def Region.id : Region → Nat
  | Region.mk i _ => i

/-- A leaf region (empty `subregions` array in the JSON). -/
def leaf (i : Nat) : Region := Region.mk i []

/-- `ROOT_REGION` from `region_hierarchy.rs` (lines 101-924): the fixed
embedded 125-node hierarchy rooted at id 0. -/
def rootRegion : Region :=
  Region.mk 0 [
    Region.mk 1 [
      Region.mk 7 [Region.mk 21 [leaf 58, leaf 59], Region.mk 22 [leaf 60, leaf 61],
        Region.mk 23 [leaf 62, leaf 63]],
      Region.mk 8 [Region.mk 24 [leaf 64, leaf 65], Region.mk 25 [leaf 66, leaf 67],
        Region.mk 26 [leaf 68, leaf 69], Region.mk 27 [leaf 70, leaf 71],
        Region.mk 28 [leaf 72, leaf 73]],
      Region.mk 9 [Region.mk 29 [leaf 74, leaf 75], Region.mk 30 [leaf 76, leaf 77]]],
    Region.mk 2 [
      Region.mk 10 [Region.mk 31 [leaf 78, leaf 79, leaf 80, leaf 81],
        Region.mk 32 [leaf 82, leaf 83], Region.mk 33 [leaf 84, leaf 85],
        Region.mk 34 [leaf 86, leaf 87], Region.mk 35 [leaf 88, leaf 89]],
      Region.mk 11 [Region.mk 36 [leaf 90, leaf 91], Region.mk 37 [leaf 92, leaf 93]]],
    Region.mk 3 [
      Region.mk 12 [Region.mk 38 [leaf 94, leaf 95], Region.mk 39 [leaf 96, leaf 97]],
      Region.mk 13 [Region.mk 40 [leaf 98, leaf 99], Region.mk 41 [leaf 100],
        Region.mk 42 [leaf 101, leaf 102]],
      Region.mk 14 [Region.mk 43 [leaf 103], Region.mk 44 [leaf 104, leaf 105]]],
    Region.mk 4 [
      Region.mk 15 [Region.mk 45 [leaf 106, leaf 107], Region.mk 46 [leaf 108, leaf 109]],
      Region.mk 16 [Region.mk 47 [leaf 110, leaf 111], Region.mk 48 [leaf 112, leaf 113]]],
    Region.mk 5 [
      Region.mk 17 [Region.mk 49 [leaf 114, leaf 115], Region.mk 50 [leaf 116, leaf 117]],
      Region.mk 18 [Region.mk 51 [leaf 118], Region.mk 52 [leaf 119, leaf 120]]],
    Region.mk 6 [
      Region.mk 19 [Region.mk 53 [leaf 121], Region.mk 54 [leaf 122],
        Region.mk 55 [leaf 123, leaf 124]],
      Region.mk 20 [leaf 56, leaf 57]]]

/-- One `push` onto a node's `sub_regions`, inserting the empty vector first
when absent (`get_or_insert_with(Vec::new).push`, lines 26-29). -/
def pushChild (t : RegionTree) (parent child : Nat) : RegionTree :=
  { regions := List.modify
      (fun e => { e with sub_regions := some (e.sub_regions.getD [] ++ [child]) })
      parent t.regions }

/-- `RegionTree::populate_with_regions_recursive` (lines 24-32): for each
subregion, push its id onto the parent's child list and recurse into it.
The source recursion is over the nested `Region` value; it is driven here by
a depth counter so the definition is structural (kernel-reducible); depth
125 strictly exceeds the height of any 125-node tree, so the zero-fuel
branch is unreachable for the constant hierarchy. -/
def populateDepth : Nat → RegionTree → Region → RegionTree
  | 0, t, _ => t
  | d + 1, t, Region.mk i subs =>
      subs.foldl (fun acc sub => populateDepth d (pushChild acc i sub.id) sub) t

/-- `RegionTree::populate_with_regions` (lines 17-22): a 125-entry default
table populated from the root description. -/
def RegionTree.populate_with_regions (root : Region) : RegionTree :=
  populateDepth 125 { regions := List.replicate 125 RegionTreeElement.dflt } root

/-- The tree as built at startup from the constant hierarchy. -/
def initTree : RegionTree := RegionTree.populate_with_regions rootRegion

/-- `RegionTree::insert_offer` (lines 63-65): push the offer index onto the
region's `offers`.  Callers only pass region ids in `[0,124]` (an
out-of-range id would panic in the source before any mutation). -/
def RegionTree.insert_offer (t : RegionTree) (region_id offer_idx : Nat) : RegionTree :=
  { regions := List.modify
      (fun e => { e with offers := e.offers ++ [offer_idx] })
      region_id t.regions }

/-- `RegionTree::insert_offers` (lines 67-69): `extend` the region's
`offers`. -/
def RegionTree.insert_offers (t : RegionTree) (region_id : Nat) (offer_idxs : List Nat) :
    RegionTree :=
  { regions := List.modify
      (fun e => { e with offers := e.offers ++ offer_idxs })
      region_id t.regions }

/-- `RegionTree::clear_offers` (lines 38-42): empty every `offers` list,
keeping the topology. -/
def RegionTree.clear_offers (t : RegionTree) : RegionTree :=
  { regions := t.regions.map (fun e => { e with offers := [] }) }

/-- The direct offers of a region node (empty for an out-of-range id, which
is only used in contexts that already exclude it). -/
def offersAt (t : RegionTree) (r : Nat) : List Nat :=
  match t.regions[r]? with
  | some e => e.offers
  | none => []

/-- The child ids of a region node. -/
def childrenAt (t : RegionTree) (r : Nat) : List Nat :=
  match t.regions[r]? with
  | some e => e.sub_regions.getD []
  | none => []

/-- `RegionTree::get_available_offers_recursive` (lines 44-60): the node's
own offers chained with the recursive enumeration of each declared child, in
order.  The slice access `self.regions[region_id as usize]` panics for an
out-of-range id; the panic is the `none` result.  The source recursion is
unbounded; it is driven here by fuel, with fuel exhaustion (divergence)
also mapping to `none` — on the constant topology child ids strictly
exceed their parent's, so fuel 125 never runs out. -/
def getAvailableOffersRec (t : RegionTree) : Nat → Nat → Option (List Nat)
  | 0, _ => none
  | fuel + 1, region_id =>
      match t.regions[region_id]? with
      | none => none
      | some elt =>
          match (elt.sub_regions.getD []).mapM (fun sub => getAvailableOffersRec t fuel sub) with
          | none => none
          | some subLists => some (elt.offers ++ subLists.flatten)

/-- `RegionTree::get_available_offers` (lines 34-36). -/
def RegionTree.get_available_offers (t : RegionTree) (region_id : Nat) : Option (List Nat) :=
  getAvailableOffersRec t 125 region_id

/-- The pre-order node enumeration of a region's subtree: the region itself,
then each child's subtree in declared order, driven by the same fuel
discipline as the traversal. -/
def subtreeNodesF (t : RegionTree) : Nat → Nat → List Nat
  | 0, _ => []
  | fuel + 1, r => r :: (childrenAt t r).flatMap (subtreeNodesF t fuel)

/-- The pre-order subtree at full fuel. -/
def subtree_preorder (t : RegionTree) (r : Nat) : List Nat := subtreeNodesF t 125 r

/-- Region-tree states reachable from the populated tree by offer
registration (`insert_offer` / `insert_offers`); registered region ids are
in range, since an out-of-range registration panics in the source. -/
inductive RegionReachable : RegionTree → Prop
  | init : RegionReachable initTree
  | insert_offer (t : RegionTree) (rid idx : Nat) (h : rid < 125)
      (ht : RegionReachable t) : RegionReachable (t.insert_offer rid idx)
  | insert_offers (t : RegionTree) (rid : Nat) (idxs : List Nat) (h : rid < 125)
      (ht : RegionReachable t) : RegionReachable (t.insert_offers rid idxs)

/-- On the fixed topology every child id strictly exceeds its parent's and
stays in `[0,125)`; this bounds the recursion depth of the traversal. -/
def childIncreasing (t : RegionTree) : Prop :=
  ∀ r, r < 125 → ∀ b ∈ childrenAt t r, r < b ∧ b < 125

set_option maxRecDepth 10000 in
theorem initTree_childIncreasing : childIncreasing initTree := by
  unfold childIncreasing
  decide

set_option maxRecDepth 10000 in
theorem initTree_length : initTree.regions.length = 125 := by decide

theorem reachable_length {t : RegionTree} (h : RegionReachable t) :
    t.regions.length = 125 := by
  induction h with
  | init => exact initTree_length
  | insert_offer t rid idx hlt ht ih =>
      simpa [RegionTree.insert_offer, List.length_modify] using ih
  | insert_offers t rid idxs hlt ht ih =>
      simpa [RegionTree.insert_offers, List.length_modify] using ih

theorem reachable_childrenAt {t : RegionTree} (h : RegionReachable t) :
    ∀ r, childrenAt t r = childrenAt initTree r := by
  induction h with
  | init => exact fun r => rfl
  | insert_offer t rid idx hlt ht ih =>
      intro r
      rw [← ih r]
      unfold childrenAt RegionTree.insert_offer
      rw [List.getElem?_modify]
      rcases t.regions[r]? with _ | e
      · rfl
      · by_cases hrr : rid = r <;> simp [hrr]
  | insert_offers t rid idxs hlt ht ih =>
      intro r
      rw [← ih r]
      unfold childrenAt RegionTree.insert_offers
      rw [List.getElem?_modify]
      rcases t.regions[r]? with _ | e
      · rfl
      · by_cases hrr : rid = r <;> simp [hrr]

theorem reachable_childIncreasing {t : RegionTree} (h : RegionReachable t) :
    childIncreasing t := by
  intro r hr b hb
  rw [reachable_childrenAt h r] at hb
  exact initTree_childIncreasing r hr b hb

theorem mapM_eq_some_map {f : Nat → Option (List Nat)} {g : Nat → List Nat} :
    ∀ l : List Nat, (∀ b ∈ l, f b = some (g b)) → l.mapM f = some (l.map g) := by
  intro l
  induction l with
  | nil => intro _; rfl
  | cons b rest ih =>
      intro h
      rw [List.mapM_cons, h b (List.mem_cons_self _ _),
        ih (fun c hc => h c (List.mem_cons_of_mem _ hc))]
      rfl

theorem getAvail_eq_flatMap (t : RegionTree) (hlen : t.regions.length = 125)
    (hinc : childIncreasing t) :
    ∀ fuel r : Nat, r < 125 → 125 - r ≤ fuel →
      getAvailableOffersRec t fuel r =
        some ((subtreeNodesF t fuel r).flatMap (offersAt t)) := by
  intro fuel
  induction fuel with
  | zero => intro r hr hf; omega
  | succ fuel ih =>
      intro r hr hf
      have hrl : r < t.regions.length := by omega
      have he : t.regions[r]? = some t.regions[r] := List.getElem?_eq_getElem hrl
      have hchild : t.regions[r].sub_regions.getD [] = childrenAt t r := by
        unfold childrenAt; rw [he]
      have hoff : t.regions[r].offers = offersAt t r := by
        unfold offersAt; rw [he]
      have hmapM : (childrenAt t r).mapM (fun sub => getAvailableOffersRec t fuel sub) =
          some ((childrenAt t r).map
            (fun b => (subtreeNodesF t fuel b).flatMap (offersAt t))) := by
        apply mapM_eq_some_map
        intro b hb
        have hb' := hinc r hr b hb
        exact ih b hb'.2 (by omega)
      simp only [getAvailableOffersRec, he, hchild, hmapM]
      rw [show subtreeNodesF t (fuel + 1) r =
            r :: (childrenAt t r).flatMap (subtreeNodesF t fuel) from rfl,
          List.flatMap_cons, hoff, List.flatMap_assoc]
      rw [show ((childrenAt t r).map
            (fun b => (subtreeNodesF t fuel b).flatMap (offersAt t))).flatten =
          (childrenAt t r).flatMap (fun b => (subtreeNodesF t fuel b).flatMap (offersAt t))
          from rfl]

theorem mem_subtreeNodesF (t : RegionTree) (hinc : childIncreasing t) :
    ∀ fuel r : Nat, r < 125 → 125 - r ≤ fuel → ∀ b,
      b ∈ subtreeNodesF t fuel r ↔
        Relation.ReflTransGen (fun a c => c ∈ childrenAt t a) r b := by
  intro fuel
  induction fuel with
  | zero => intro r hr hf; omega
  | succ fuel ih =>
      intro r hr hf b
      constructor
      · intro hmem
        simp only [subtreeNodesF, List.mem_cons, List.mem_flatMap] at hmem
        rcases hmem with rfl | ⟨c, hc, hmem⟩
        · exact Relation.ReflTransGen.refl
        · have hc' := hinc r hr c hc
          exact Relation.ReflTransGen.head hc ((ih c hc'.2 (by omega) b).mp hmem)
      · intro hrtg
        rcases Relation.ReflTransGen.cases_head hrtg with rfl | ⟨c, hstep, hrest⟩
        · simp [subtreeNodesF]
        · have hc' := hinc r hr c hstep
          have hmem : b ∈ subtreeNodesF t fuel c := (ih c hc'.2 (by omega) b).mpr hrest
          simp only [subtreeNodesF, List.mem_cons, List.mem_flatMap]
          exact Or.inr ⟨c, hstep, hmem⟩

/-- The C4 property at a region tree state and region: the traversal yields
exactly the direct offers flat-mapped over the pre-order subtree node list
(own offers first, then each child subtree in declared order), and that node
list consists of exactly the region and its transitive descendants. -/
def SubtreeSpec (t : RegionTree) (r : Nat) : Prop :=
  t.get_available_offers r = some ((subtree_preorder t r).flatMap (offersAt t)) ∧
  subtree_preorder t r = r :: (childrenAt t r).flatMap (subtreeNodesF t 124) ∧
  (∀ b, b ∈ subtree_preorder t r ↔
    Relation.ReflTransGen (fun a c => c ∈ childrenAt t a) r b)

/-- C4: subtree transitivity.  For every state reachable by
`insert_offer`/`insert_offers` and every region id in `[0,124]`,
`get_available_offers` enumerates exactly the direct offer lists of the
region and all its transitive descendants, in pre-order: the region's own
offers first (in registration order), then each child subtree in declared
child order. -/
theorem subtree_transitivity (t : RegionTree) (h : RegionReachable t)
    (r : Nat) (hr : r < 125) : SubtreeSpec t r := by
  have hlen := reachable_length h
  have hinc := reachable_childIncreasing h
  exact ⟨getAvail_eq_flatMap t hlen hinc 125 r hr (by omega), rfl,
    fun b => mem_subtreeNodesF t hinc 125 r hr (by omega) b⟩

/-- Witness for C4: the populated tree with one offer registered at region 58
(scenario S1), queried at the root. -/
theorem subtree_transitivity_witness : SubtreeSpec (initTree.insert_offer 58 0) 0 :=
  subtree_transitivity (initTree.insert_offer 58 0)
    (RegionReachable.insert_offer initTree 58 0 (by decide) RegionReachable.init)
    0 (by decide)

/-! ### The dense store and the whole engine (`db_manager.rs`) -/

/-- `DenseStore` from `db_manager.rs` (lines 484-498).  The initial capacity
reservation (`2^25`) is a latency hint with no semantic content. -/
structure DenseStore where
  all : List Offer
deriving DecidableEq, Repr

/-- `DenseStore::new`. -/
def DenseStore.new : DenseStore := { all := [] }

/-- `DenseStore::insert`: append. -/
def DenseStore.insert (s : DenseStore) (offer : Offer) : DenseStore :=
  { all := s.all ++ [offer] }

/-- The in-memory state guarded by `DBManager`'s two locks: the dense offer
store, the region tree and the day-count index.  Queries take shared (read)
access only, so a query never changes this state. -/
structure DBState where
  store : DenseStore
  tree : RegionTree
  days : NumberOfDaysIndex

/-- The response assembly of `query_for` (`db_manager.rs` lines 159-199)
from the candidate offers that reached predicate evaluation. -/
def queryResponse (req : RequestOffer) (offers : List Offer) : GetReponseBodyModel :=
  let st := processOffers req offers
  { offers := sort_orders_and_paginate st.filtered_offers req
    price_ranges := emitPriceRanges req st.price_range_interval_mapping
    car_type_counts := st.car_type_count
    seats_count := emitSeatCounts st.seats_count_map
    free_kilometer_range := emitFreeKilometerRanges req st.free_kilometers_interval_mapping
    vollkasko_count := st.vollkasko_count }

/-- `DBManager::query_for` (lines 39-200).  The candidate pipeline through
`IndexTree::get_available_offers(region_id, number_days, time_range_start,
time_range_end)` is partly modelled from the spec: the `IndexTree` wrapper
called at lines 45-51 is not under `src/`; per spec section 4.4.1 it
enumerates the region subtree (the `RegionTree` traversal of
`region_hierarchy.rs`), drops indices not in the day-count bucket
(`NumberOfDaysIndex::filter_offers` of `number_of_days.rs`), and offers
outside `[time_range_start, time_range_end]` are dropped (spec section 4.3).
The lookup `&dense_store.all[offer_idx as usize]` of line 52 panics
(`none`) when an index is out of bounds.  `query_for` itself never returns
`Err`: its only exit is `Ok(...)` at line 186. -/
def DBManager.query_for (db : DBState) (req : RequestOffer) :
    Option GetReponseBodyModel :=
  match db.tree.get_available_offers req.region_id with
  | none => none
  | some idxs =>
      match (db.days.filter_offers req.number_days idxs).mapM
          (fun offer_idx => db.store.all[offer_idx]?) with
      | none => none
      | some candidates =>
          some (queryResponse req (candidates.filter (fun o =>
            req.time_range_start ≤ o.start_date &&
              o.end_date ≤ req.time_range_end)))

/-- The empty engine state at startup (`DBManager::new`). -/
def DBState.init : DBState :=
  { store := DenseStore.new, tree := initTree, days := NumberOfDaysIndex.new }

/-- Modelled from the spec (sections 3, 4.1, 4.2): the ingest path (outside
`src/`) appends each offer to the dense store with `idx` equal to its
insertion ordinal, registers that index at the offer's region, and indexes
its duration. -/
def DBState.insert (db : DBState) (o : Offer) : DBState :=
  let o' := { o with idx := db.store.all.length }
  { store := db.store.insert o'
    tree := db.tree.insert_offer o'.region_id o'.idx
    days := db.days.index_offer o' }

/-- `DBManager::cleanup` (lines 471-481): clear the region tree's offers and
the store (and the day-count index via `NumberOfDaysIndex::clear`). -/
def DBState.cleanup (db : DBState) : DBState :=
  { store := { all := [] }
    tree := db.tree.clear_offers
    days := NumberOfDaysIndex.new }

/-- Engine states reachable by paired insert-and-register operations and by
cleanup.  Offer region ids are in `[0,124]` (spec section 3; an out-of-range
id would panic in `insert_offer` before producing a state). -/
inductive DBReachable : DBState → Prop
  | init : DBReachable DBState.init
  | insert (db : DBState) (o : Offer) (h : o.region_id < 125)
      (hdb : DBReachable db) : DBReachable (DBState.insert db o)
  | cleanup (db : DBState) (hdb : DBReachable db) : DBReachable (DBState.cleanup db)

/-- The store/index invariant of spec section 3: the region table has its
125 entries with the fixed topology, and every offer index registered at any
region is in range for the dense store. -/
def IndexInv (db : DBState) : Prop :=
  db.tree.regions.length = 125 ∧
  (∀ r, childrenAt db.tree r = childrenAt initTree r) ∧
  (∀ r, r < 125 → ∀ i ∈ offersAt db.tree r, i < db.store.all.length)

set_option maxRecDepth 10000 in
theorem initTree_offersAt_empty : ∀ r, r < 125 → offersAt initTree r = [] := by
  decide

theorem childrenAt_insert_offer (t : RegionTree) (rid idx r : Nat) :
    childrenAt (t.insert_offer rid idx) r = childrenAt t r := by
  unfold childrenAt RegionTree.insert_offer
  rw [List.getElem?_modify]
  rcases t.regions[r]? with _ | e
  · rfl
  · by_cases hrr : rid = r <;> simp [hrr]

theorem childrenAt_clear_offers (t : RegionTree) (r : Nat) :
    childrenAt (t.clear_offers) r = childrenAt t r := by
  unfold childrenAt RegionTree.clear_offers
  rw [List.getElem?_map]
  rcases t.regions[r]? with _ | e <;> rfl

theorem offersAt_insert_offer_mem (t : RegionTree) (rid idx r i : Nat)
    (h : i ∈ offersAt (t.insert_offer rid idx) r) :
    i ∈ offersAt t r ∨ i = idx := by
  unfold offersAt RegionTree.insert_offer at h
  rw [List.getElem?_modify] at h
  rcases hre : t.regions[r]? with _ | e
  · rw [hre] at h; simp at h
  · rw [hre] at h
    unfold offersAt
    rw [hre]
    by_cases hrr : rid = r
    · simp only [hrr, if_pos rfl, Option.map_some] at h
      rcases List.mem_append.mp h with h | h
      · exact Or.inl h
      · exact Or.inr (List.mem_singleton.mp h)
    · simp only [Option.map_some, if_neg hrr] at h
      exact Or.inl h

theorem offersAt_clear_offers (t : RegionTree) (r : Nat) :
    offersAt (t.clear_offers) r = [] := by
  unfold offersAt RegionTree.clear_offers
  rw [List.getElem?_map]
  rcases t.regions[r]? with _ | e <;> rfl

theorem dbReachable_indexInv {db : DBState} (h : DBReachable db) : IndexInv db := by
  induction h with
  | init =>
      refine ⟨initTree_length, fun r => rfl, ?_⟩
      intro r hr i hi
      rw [show DBState.init.tree = initTree from rfl,
        initTree_offersAt_empty r hr] at hi
      simp at hi
  | insert db o hlt hdb ih =>
      obtain ⟨hlen, hch, hbound⟩ := ih
      refine ⟨?_, ?_, ?_⟩
      · simpa [DBState.insert, RegionTree.insert_offer, List.length_modify] using hlen
      · intro r
        rw [show (DBState.insert db o).tree =
              db.tree.insert_offer o.region_id db.store.all.length from rfl,
            childrenAt_insert_offer]
        exact hch r
      · intro r hr i hi
        rw [show (DBState.insert db o).tree =
              db.tree.insert_offer o.region_id db.store.all.length from rfl] at hi
        have hst : (DBState.insert db o).store.all.length = db.store.all.length + 1 := by
          simp [DBState.insert, DenseStore.insert]
        rw [hst]
        rcases offersAt_insert_offer_mem _ _ _ _ _ hi with h | h
        · exact Nat.lt_succ_of_lt (hbound r hr i h)
        · omega
  | cleanup db hdb ih =>
      obtain ⟨hlen, hch, hbound⟩ := ih
      refine ⟨?_, ?_, ?_⟩
      · simpa [DBState.cleanup, RegionTree.clear_offers] using hlen
      · intro r
        rw [show (DBState.cleanup db).tree = db.tree.clear_offers from rfl,
            childrenAt_clear_offers]
        exact hch r
      · intro r hr i hi
        rw [show (DBState.cleanup db).tree = db.tree.clear_offers from rfl,
            offersAt_clear_offers] at hi
        simp at hi

theorem rtg_child_lt (t : RegionTree) (hinc : childIncreasing t) {r b : Nat}
    (hr : r < 125)
    (h : Relation.ReflTransGen (fun a c => c ∈ childrenAt t a) r b) : b < 125 := by
  induction h with
  | refl => exact hr
  | tail hab hbc ih => exact (hinc _ ih _ hbc).2

theorem get_avail_mem_bound (db : DBState) (hInv : IndexInv db) (r : Nat)
    (idxs : List Nat) (hidx : db.tree.get_available_offers r = some idxs) :
    ∀ i ∈ idxs, i < db.store.all.length := by
  obtain ⟨hlen, hch, hbound⟩ := hInv
  have hinc : childIncreasing db.tree := fun r' hr' b hb =>
    initTree_childIncreasing r' hr' b (hch r' ▸ hb)
  have hr : r < 125 := by
    by_contra hge
    have hnone : db.tree.regions[r]? = none := List.getElem?_eq_none (by omega)
    rw [show db.tree.get_available_offers r =
          getAvailableOffersRec db.tree (124 + 1) r from rfl] at hidx
    simp [getAvailableOffersRec, hnone] at hidx
  have heq := getAvail_eq_flatMap db.tree hlen hinc 125 r hr (by omega)
  rw [RegionTree.get_available_offers, heq] at hidx
  have heq2 : idxs = (subtreeNodesF db.tree 125 r).flatMap (offersAt db.tree) :=
    (Option.some.inj hidx).symm
  intro i hi
  rw [heq2] at hi
  rcases List.mem_flatMap.mp hi with ⟨node, hnode, hmem⟩
  have hrtg := (mem_subtreeNodesF db.tree hinc 125 r hr (by omega) node).mp hnode
  exact hbound node (rtg_child_lt db.tree hinc hr hrtg) i hmem

theorem mapM_lookup_some (store : List Offer) :
    ∀ idxs : List Nat, (∀ i ∈ idxs, i < store.length) →
      ∃ offers, idxs.mapM (fun i => store[i]?) = some offers := by
  intro idxs
  induction idxs with
  | nil => intro _; exact ⟨[], rfl⟩
  | cons i rest ih =>
      intro h
      obtain ⟨offers, hoff⟩ := ih (fun j hj => h j (List.mem_cons_of_mem _ hj))
      have hlt : i < store.length := h i (List.mem_cons_self _ _)
      have hi : store[i]? = some (store.get ⟨i, hlt⟩) := by
        rw [List.getElem?_eq_getElem hlt, List.get_eq_getElem]
      exact ⟨store.get ⟨i, hlt⟩ :: offers, by rw [List.mapM_cons, hi, hoff]; rfl⟩

/-- C10: under the invariant maintained by paired insert-and-register and
cleanup, whenever candidate enumeration yields a list of offer indices, the
dense-store lookup of every candidate succeeds: the panic branch of
`dense_store.all[offer_idx]` at `db_manager.rs` line 52 is unreachable. -/
theorem store_lookup_in_bounds (db : DBState) (hdb : DBReachable db)
    (req : RequestOffer) (idxs : List Nat)
    (hidx : db.tree.get_available_offers req.region_id = some idxs) :
    ((db.days.filter_offers req.number_days idxs).mapM
        (fun offer_idx => db.store.all[offer_idx]?)).isSome = true := by
  have hInv := dbReachable_indexInv hdb
  have hbound := get_avail_mem_bound db hInv req.region_id idxs hidx
  have hbound' : ∀ i ∈ db.days.filter_offers req.number_days idxs,
      i < db.store.all.length := by
    intro i hi
    unfold NumberOfDaysIndex.filter_offers at hi
    exact hbound i (List.mem_of_mem_filter hi)
  obtain ⟨cands, hc⟩ := mapM_lookup_some db.store.all _ hbound'
  rw [hc]
  rfl

/-- A concrete store offer for the engine-level witnesses: scenario S1's
offer at region 58. -/
def sampleOffer : Offer :=
  { id := [97], data := [], region_id := 58, start_date := 0, end_date := 86400000,
    number_seats := 4, price := 1000, car_type := CarType.Small,
    has_vollkasko := true, free_kilometers := 100, idx := 0 }

/-- The engine state holding exactly `sampleOffer`. -/
def sampleDB : DBState := DBState.insert DBState.init sampleOffer

set_option maxRecDepth 10000 in
/-- Witness for C10: the one-offer state queried at the root region, whose
enumeration yields index 0. -/
theorem store_lookup_in_bounds_witness :
    ((sampleDB.days.filter_offers 1 [0]).mapM
        (fun offer_idx => sampleDB.store.all[offer_idx]?)).isSome = true :=
  store_lookup_in_bounds sampleDB
    (DBReachable.insert DBState.init sampleOffer (by decide) DBReachable.init)
    { region_id := 0, time_range_start := 0, time_range_end := 86400000, number_days := 1,
      sort_order := SortOrder.PriceAsc, page := 0, page_size := 10,
      price_range_width := 500, min_free_kilometer_width := 50,
      min_number_seats := none, min_price := none, max_price := none,
      car_type := none, only_vollkasko := none, min_free_kilometer := none }
    [0] (by decide)

set_option maxRecDepth 10000 in
/-- Counterexample to C2 as stated: on the freshly populated state, a query
with `region_id = 125` (outside `[0,124]`) does not return an empty result —
the unchecked `regions[region_id]` access panics (`none`), so `query_for`
produces no response at all. -/
theorem out_of_range_region_cex :
    DBManager.query_for DBState.init
      { region_id := 125, time_range_start := 0, time_range_end := 86400000, number_days := 1,
        sort_order := SortOrder.PriceAsc, page := 0, page_size := 10,
        price_range_width := 500, min_free_kilometer_width := 50,
        min_number_seats := none, min_price := none, max_price := none,
        car_type := none, only_vollkasko := none, min_free_kilometer := none } = none := by
  decide

/-- C2 (amended): for every reachable engine state, a query whose
`region_id` lies outside `[0,124]` panics in the region lookup
(`regions[region_id as usize]` with a 125-entry table), modelled as
`query_for` returning `none` rather than an empty success response; no
state changes, since `query_for` only reads the store and the indexes. -/
theorem out_of_range_region_panics (db : DBState) (hdb : DBReachable db)
    (req : RequestOffer) (hr : 125 ≤ req.region_id) :
    DBManager.query_for db req = none := by
  have hlen := (dbReachable_indexInv hdb).1
  have hnone : db.tree.regions[req.region_id]? = none :=
    List.getElem?_eq_none (by omega)
  have havail : db.tree.get_available_offers req.region_id = none := by
    rw [show db.tree.get_available_offers req.region_id =
          getAvailableOffersRec db.tree (124 + 1) req.region_id from rfl]
    simp [getAvailableOffersRec, hnone]
  simp [DBManager.query_for, havail]

set_option maxRecDepth 10000 in
/-- Witness for the amended C2 at the initial state and `region_id = 125`. -/
theorem out_of_range_region_panics_witness :
    DBManager.query_for DBState.init
      { region_id := 125, time_range_start := 0, time_range_end := 86400000, number_days := 2,
        sort_order := SortOrder.PriceDesc, page := 0, page_size := 10,
        price_range_width := 500, min_free_kilometer_width := 50,
        min_number_seats := none, min_price := none, max_price := none,
        car_type := none, only_vollkasko := none, min_free_kilometer := none } = none :=
  out_of_range_region_panics DBState.init DBReachable.init _ (by decide)

set_option maxRecDepth 10000 in
/-- Counterexample to C9 as stated: a request with `page_size = 0` (a
non-positive page size, hence malformed per the spec) is answered with a
normal success response — `query_for` performs no validation and its only
exit is `Ok`. -/
theorem malformed_request_success_cex :
    (DBManager.query_for DBState.init
      { region_id := 0, time_range_start := 0, time_range_end := 86400000, number_days := 1,
        sort_order := SortOrder.PriceAsc, page := 0, page_size := 0,
        price_range_width := 500, min_free_kilometer_width := 50,
        min_number_seats := none, min_price := none, max_price := none,
        car_type := none, only_vollkasko := none,
        min_free_kilometer := none }).isSome = true := by
  decide

theorem paginate_page_size_zero (offers : List Offer) (req : RequestOffer)
    (hp : req.page_size = 0) : sort_orders_and_paginate offers req = [] := by
  unfold sort_orders_and_paginate
  by_cases h : offers.isEmpty <;> simp [h, hp]

/-- C9 (amended): the engine performs no request validation: for every
reachable state and every request with an in-range region, positive
histogram widths and a zero `page_size` (non-positive, so malformed per the
spec), `query_for` still returns a normal success response whose offers
page is empty; no state is changed since queries only read.  The width
hypotheses matter: with a zero width a candidate offer reaching a histogram
handler panics on the bucket division (`db_manager.rs` lines 217 and 230) —
also not an error report — and the `Nat` model of that division is exact
only for positive widths. -/
theorem no_request_validation (db : DBState) (hdb : DBReachable db)
    (req : RequestOffer) (hr : req.region_id < 125) (hp : req.page_size = 0)
    (hw : 0 < req.price_range_width) (hk : 0 < req.min_free_kilometer_width) :
    ∃ resp, DBManager.query_for db req = some resp ∧ resp.offers = [] := by
  obtain ⟨hlen, hch, hbound⟩ := dbReachable_indexInv hdb
  have hinc : childIncreasing db.tree := fun r' hr' b hb =>
    initTree_childIncreasing r' hr' b (hch r' ▸ hb)
  have havail := getAvail_eq_flatMap db.tree hlen hinc 125 req.region_id hr (by omega)
  have hidx : db.tree.get_available_offers req.region_id =
      some ((subtreeNodesF db.tree 125 req.region_id).flatMap (offersAt db.tree)) := havail
  have hbound1 : ∀ i ∈ (subtreeNodesF db.tree 125 req.region_id).flatMap (offersAt db.tree),
      i < db.store.all.length := by
    intro i hi
    rcases List.mem_flatMap.mp hi with ⟨node, hnode, hmem⟩
    have hrtg := (mem_subtreeNodesF db.tree hinc 125 req.region_id hr (by omega) node).mp hnode
    exact hbound node (rtg_child_lt db.tree hinc hr hrtg) i hmem
  have hbound2 : ∀ i ∈ db.days.filter_offers req.number_days
      ((subtreeNodesF db.tree 125 req.region_id).flatMap (offersAt db.tree)),
      i < db.store.all.length := by
    intro i hi
    unfold NumberOfDaysIndex.filter_offers at hi
    exact hbound1 i (List.mem_of_mem_filter hi)
  obtain ⟨cands, hc⟩ := mapM_lookup_some db.store.all _ hbound2
  refine ⟨queryResponse req ((cands.filter (fun o =>
      req.time_range_start ≤ o.start_date && o.end_date ≤ req.time_range_end))), ?_, ?_⟩
  · simp only [DBManager.query_for, hidx, hc]
  · show sort_orders_and_paginate
      (processOffers req _).filtered_offers req = []
    exact paginate_page_size_zero _ _ hp

set_option maxRecDepth 10000 in
/-- Witness for the amended C9 at the one-offer state with `page_size = 0`. -/
theorem no_request_validation_witness :
    ∃ resp, DBManager.query_for sampleDB
      { region_id := 0, time_range_start := 0, time_range_end := 86400000, number_days := 1,
        sort_order := SortOrder.PriceAsc, page := 0, page_size := 0,
        price_range_width := 500, min_free_kilometer_width := 50,
        min_number_seats := none, min_price := none, max_price := none,
        car_type := none, only_vollkasko := none, min_free_kilometer := none } = some resp ∧
      resp.offers = [] :=
  no_request_validation sampleDB
    (DBReachable.insert DBState.init sampleOffer (by decide) DBReachable.init)
    _ (by decide) rfl (by decide) (by decide)
